import Mathlib

/-!
Verification of the praxis-hub-api worker (`src/index.ts`).

The worker serves JSON documents from a key-value store, with HTTP
conditional-caching (ETag / If-None-Match) and a `/list-keys` diagnostic
endpoint that paginates through the store's listing API.

The embedding below translates the TypeScript source into Lean:
* strings are Lean `String`s, with the JavaScript string operations
  (`replace(/^\/+/, '')`, `endsWith`, `startsWith`, `replace(/^W\//, '')`,
  `replace(/^"+|"+$/g, '')`) modelled as explicit functions on the
  underlying character lists;
* the platform SHA-1 digest (`crypto.subtle.digest`) is an abstract
  parameter `digest : String → List (Fin 256)` (a byte sequence); the
  hex-encoding applied to it (`b.toString(16).padStart(2, '0')` joined)
  is translated from the source;
* the key-value store is a record of a lookup function (the value part of
  `getWithMetadata(key, { type: 'text' })`, `none` when the stored value
  is absent) and a listing function which may fail (a thrown fault is
  modelled as `Except.error`; the fault payload is `some message` when
  the thrown value is an object with a `message` property, else `none`);
* the unbounded `do … while (cursor)` pagination loop receives an explicit
  fuel parameter; `none` means the fuel ran out before the loop finished.
-/

namespace PraxisHub

/-- One HTTP header, as a (name, value) pair, in the order the source lists
them in the response init object. -/
abbrev Header := String × String

/-- The body of a response produced by the worker: `empty` for the
`null` body of a 304, `doc` for the raw stored document text, `jsonArr`
for `JSON.stringify` of a string array, and `jsonObj` for `JSON.stringify`
of an object literal with string-valued fields (in literal order). -/
inductive Body where
  | empty : Body
  | doc : String → Body
  | jsonArr : List String → Body
  | jsonObj : List (String × String) → Body
deriving DecidableEq, Repr

/-- An HTTP response: status code, body, headers (in source order). -/
structure Response where
  status : Nat
  body : Body
  headers : List Header
deriving DecidableEq, Repr

/-- One entry returned by the store's listing call (`{ name }`). -/
structure KvKey where
  name : String
deriving DecidableEq, Repr

/-- The result object of one `kv.list` call: page of keys and the
optional continuation cursor. -/
structure KvListResult where
  keys : List KvKey
  cursor : Option String
deriving DecidableEq, Repr

/-- A fault thrown by the store: `some m` when the thrown value is an
object carrying a `message` property `m`, `none` otherwise. -/
abbrev KvFault := Option String

/-- The store's listing operation: takes the cursor option and the limit,
returns a page or throws. -/
abbrev KvListFn := Option String → Nat → Except KvFault KvListResult

/-- The environment binding `env.APP_JSON`: the lookup part
(`getWithMetadata(key, { type: 'text' }).value`, `none` for an absent
value) and the listing part. -/
structure Env where
  get : String → Option String
  list : KvListFn

/-- JavaScript `s.replace(/^\/+/, '')`: remove every leading `'/'`. -/
def jsStripLeadingSlashes (s : String) : String :=
  ⟨s.data.dropWhile (fun c => c == '/')⟩

/-- JavaScript `s.endsWith(t)`. -/
def jsEndsWith (s t : String) : Bool :=
  t.data.isSuffixOf s.data

/-- JavaScript `s.startsWith(t)`. -/
def jsStartsWith (s t : String) : Bool :=
  t.data.isPrefixOf s.data

/-- `src/index.ts` lines 34–35: derive the storage key from the path —
strip leading slashes, then append `".json"` unless already present. -/
def deriveKey (pathname : String) : String :=
  let key := jsStripLeadingSlashes pathname
  if jsEndsWith key ".json" then key else key ++ ".json"

/-- JavaScript `s.replace(/^W\//, '')`: drop a leading weak-validator
marker `W/` when present. -/
def stripWeakMarker (s : String) : String :=
  if jsStartsWith s "W/" then ⟨s.data.drop 2⟩ else s

/-- JavaScript `s.replace(/^"+|"+$/g, '')`: drop every leading and every
trailing `'"'`. -/
def stripQuotes (s : String) : String :=
  ⟨((s.data.dropWhile (fun c => c == '"')).reverse.dropWhile
      (fun c => c == '"')).reverse⟩

/-- One hex digit, as produced by JavaScript `Number.prototype.toString(16)`
for an argument below 16: `0`–`9` then `a`–`f`. -/
def hexDigit (n : Nat) : Char :=
  if n < 10 then Char.ofNat (48 + n) else Char.ofNat (87 + n)

/-- `b.toString(16).padStart(2, '0')` for a byte `b`: exactly two hex
digits. -/
def byteToHex (b : Fin 256) : List Char :=
  [hexDigit (b.val / 16), hexDigit (b.val % 16)]

/-- The `sha1` helper of `src/index.ts`: digest the text (the platform
digest is the abstract parameter), hex-encode each byte, join. -/
def sha1hex (digest : String → List (Fin 256)) (data : String) : String :=
  ⟨((digest data).map byteToHex).flatten⟩

/-- JavaScript truthiness of the loop guard `while (cursor)` for
`cursor : string | undefined`: `undefined` and `""` are falsy. -/
def cursorTruthy : Option String → Bool
  | none => false
  | some c => !(c == "")

/-- Outcome of the pagination loop: the accumulated key names together
with the number of `kv.list` calls made, or the fault that aborted it. -/
inductive ListOut where
  | ok : List String → Nat → ListOut
  | fault : KvFault → Nat → ListOut
deriving DecidableEq, Repr

/-- The body of `listAllKeys` (`src/index.ts` lines 88–99): the
`do … while (cursor)` loop, with explicit fuel; `none` means the fuel was
exhausted while the loop was still running. `keys` and `calls` are the
accumulated names and the number of listing calls made so far. -/
def listAllKeysGo (lst : KvListFn) :
    Nat → Option String → List String → Nat → Option ListOut
  | 0, _, _, _ => none
  | fuel + 1, cursor, keys, calls =>
    match lst cursor 1000 with
    | .error e => some (.fault e (calls + 1))
    | .ok r =>
      let keys2 := keys ++ r.keys.map KvKey.name
      if cursorTruthy r.cursor then
        listAllKeysGo lst fuel r.cursor keys2 (calls + 1)
      else
        some (.ok keys2 (calls + 1))

/-- `listAllKeys` of `src/index.ts`: run the loop from an absent cursor
with an empty accumulator. -/
def listAllKeys (lst : KvListFn) (fuel : Nat) : Option ListOut :=
  listAllKeysGo lst fuel none [] 0

/-- The 404 response built at `src/index.ts` lines 40–43. -/
def notFoundResponse (key : String) : Response :=
  { status := 404
  , body := .jsonObj [("error", "JSON not found for key: " ++ key)]
  , headers := [("Content-Type", "application/json")] }

/-- The `fetch` handler of `src/index.ts`. Inputs: the abstract digest,
the environment, fuel for the pagination loop, `url.pathname`, and the
`If-None-Match` request header (`none` when absent). Output `none` only
when the pagination loop ran out of fuel. -/
def fetch (digest : String → List (Fin 256)) (env : Env) (fuel : Nat)
    (pathname : String) (ifNoneMatchHeader : Option String) :
    Option Response :=
  if pathname = "/list-keys" then
    match listAllKeys env.list fuel with
    | none => none
    | some (.ok allKeys _) =>
      some { status := 200
           , body := .jsonArr allKeys
           , headers := [("Content-Type", "application/json"),
                         ("Access-Control-Allow-Origin", "*")] }
    | some (.fault e _) =>
      let errorMessage := match e with
        | some m => m
        | none => "Unknown error"
      some { status := 500
           , body := .jsonObj [("error", "Failed to list keys"),
                               ("details", errorMessage)]
           , headers := [("Content-Type", "application/json")] }
  else
    let key := deriveKey pathname
    match env.get key with
    | none => some (notFoundResponse key)
    | some v =>
      if v = "" then some (notFoundResponse key)
      else
        let jsonString := v
        let etag := "\"" ++ sha1hex digest jsonString ++ "\""
        let ifNoneMatch :=
          ifNoneMatchHeader.map (fun s => stripQuotes (stripWeakMarker s))
        let normalizedEtag := stripQuotes etag
        if ifNoneMatch = some normalizedEtag then
          some { status := 304
               , body := .empty
               , headers := [("ETag", etag),
                             ("Access-Control-Allow-Origin", "*"),
                             ("Access-Control-Expose-Headers", "ETag")] }
        else
          some { status := 200
               , body := .doc jsonString
               , headers := [("Content-Type", "application/json"),
                             ("Access-Control-Allow-Origin", "*"),
                             ("Cache-Control", "public, max-age=300"),
                             ("ETag", etag)] }

/-! ### String-normalization lemmas -/

theorem dropWhile_eq_self_of_forall {p : Char → Bool} {l : List Char}
    (h : ∀ c ∈ l, p c = false) : l.dropWhile p = l := by
  cases l with
  | nil => rfl
  | cons a l => simp [List.dropWhile_cons, h a (List.mem_cons_self a l)]

theorem jsStripLeadingSlashes_of_no_slash {p : String}
    (h : jsStartsWith p "/" = false) : jsStripLeadingSlashes p = p := by
  apply String.ext
  show p.data.dropWhile (fun c => c == '/') = p.data
  unfold jsStartsWith at h
  cases hd : p.data with
  | nil => simp
  | cons c l =>
    rw [hd] at h
    have hc : (c == '/') = false := by
      by_contra hcc
      rw [Bool.not_eq_false, beq_iff_eq] at hcc
      subst hcc
      simp [List.isPrefixOf] at h
    simp [List.dropWhile_cons, hc]

theorem jsStartsWith_quote_not_weak (s : String) :
    jsStartsWith ("\"" ++ s) "W/" = false := by
  unfold jsStartsWith
  rw [String.data_append]
  show List.isPrefixOf ['W', '/'] ('"' :: s.data) = false
  simp [List.isPrefixOf]

theorem stripWeakMarker_of_quote (s : String) :
    stripWeakMarker ("\"" ++ s) = "\"" ++ s := by
  unfold stripWeakMarker
  rw [jsStartsWith_quote_not_weak]
  simp

theorem stripWeakMarker_weak (s : String) :
    stripWeakMarker ("W/" ++ s) = s := by
  unfold stripWeakMarker
  have h : jsStartsWith ("W/" ++ s) "W/" = true := by
    unfold jsStartsWith
    rw [String.data_append]
    show List.isPrefixOf ['W', '/'] ('W' :: '/' :: s.data) = true
    simp [List.isPrefixOf]
  rw [h]
  simp only [if_true]
  apply String.ext
  show (("W/" ++ s).data.drop 2) = s.data
  rw [String.data_append]
  rfl

theorem stripQuotes_quoted {s : String}
    (h : ∀ c ∈ s.data, (c == '"') = false) :
    stripQuotes ("\"" ++ s ++ "\"") = s := by
  apply String.ext
  show ((("\"" ++ s ++ "\"").data.dropWhile (fun c => c == '"')).reverse.dropWhile
      (fun c => c == '"')).reverse = s.data
  have hd : ("\"" ++ s ++ "\"").data = '"' :: (s.data ++ ['"']) := by
    rw [String.data_append, String.data_append]
    rfl
  rw [hd]
  rw [List.dropWhile_cons]
  simp only [beq_self_eq_true, if_true]
  cases hs : s.data with
  | nil => simp
  | cons c l =>
    have hc : (c == '"') = false := h c (by rw [hs]; exact List.mem_cons_self c l)
    have step1 : List.dropWhile (fun x => x == '"') ((c :: l) ++ ['"']) =
        (c :: l) ++ ['"'] := by
      rw [List.cons_append, List.dropWhile_cons]
      simp [hc]
    rw [step1, List.reverse_append]
    show ((('"' :: (c :: l).reverse)).dropWhile (fun x => x == '"')).reverse = c :: l
    rw [List.dropWhile_cons]
    simp only [beq_self_eq_true, if_true]
    rw [dropWhile_eq_self_of_forall, List.reverse_reverse]
    intro d hdmem
    exact h d (by rw [hs]; exact List.mem_reverse.mp hdmem)

theorem hexDigit_ne_quote {n : Nat} (h : n < 16) :
    (hexDigit n == '"') = false := by
  have h16 : ∀ m : Fin 16, (hexDigit m.val == '"') = false := by decide
  exact h16 ⟨n, h⟩

theorem sha1hex_no_quote (digest : String → List (Fin 256)) (v : String) :
    ∀ c ∈ (sha1hex digest v).data, (c == '"') = false := by
  intro c hc
  have hc2 : c ∈ ((digest v).map byteToHex).flatten := hc
  rw [List.mem_flatten] at hc2
  obtain ⟨l, hl, hcl⟩ := hc2
  rw [List.mem_map] at hl
  obtain ⟨b, _, rfl⟩ := hl
  unfold byteToHex at hcl
  simp only [List.mem_cons] at hcl
  rcases hcl with rfl | rfl | h1
  case inr.inr => exact absurd h1 (List.not_mem_nil c)
  · exact hexDigit_ne_quote ((Nat.div_lt_iff_lt_mul (by decide)).mpr b.isLt)
  · exact hexDigit_ne_quote (Nat.mod_lt _ (by decide))

theorem stripQuotes_etag (digest : String → List (Fin 256)) (v : String) :
    stripQuotes ("\"" ++ sha1hex digest v ++ "\"") = sha1hex digest v :=
  stripQuotes_quoted (sha1hex_no_quote digest v)

theorem normalize_etag (digest : String → List (Fin 256)) (v : String) :
    stripQuotes (stripWeakMarker ("\"" ++ sha1hex digest v ++ "\"")) =
      sha1hex digest v := by
  rw [String.append_assoc, stripWeakMarker_of_quote, ← String.append_assoc,
    stripQuotes_etag]

/-! ### Handler-level lemmas -/

theorem fetch_miss (digest : String → List (Fin 256)) (env : Env) (fuel : Nat)
    {p : String} (inm : Option String) (hp : p ≠ "/list-keys")
    (hv : env.get (deriveKey p) = none ∨ env.get (deriveKey p) = some "") :
    fetch digest env fuel p inm = some (notFoundResponse (deriveKey p)) := by
  rcases hv with hv | hv <;> simp [fetch, hp, hv]

theorem fetch_hit (digest : String → List (Fin 256)) (env : Env) (fuel : Nat)
    {p v : String} (inm : Option String) (hp : p ≠ "/list-keys")
    (hv : env.get (deriveKey p) = some v) (hne : v ≠ "") :
    fetch digest env fuel p inm =
      (if inm.map (fun s => stripQuotes (stripWeakMarker s)) =
          some (sha1hex digest v) then
        some { status := 304
             , body := .empty
             , headers := [("ETag", "\"" ++ sha1hex digest v ++ "\""),
                           ("Access-Control-Allow-Origin", "*"),
                           ("Access-Control-Expose-Headers", "ETag")] }
      else
        some { status := 200
             , body := .doc v
             , headers := [("Content-Type", "application/json"),
                           ("Access-Control-Allow-Origin", "*"),
                           ("Cache-Control", "public, max-age=300"),
                           ("ETag", "\"" ++ sha1hex digest v ++ "\"")] }) := by
  simp only [fetch, if_neg hp, hv, if_neg hne, stripQuotes_etag]

theorem fetch_header_congr (digest : String → List (Fin 256)) (env : Env)
    (fuel : Nat) (p : String) {a b : String}
    (hab : stripQuotes (stripWeakMarker a) = stripQuotes (stripWeakMarker b)) :
    fetch digest env fuel p (some a) = fetch digest env fuel p (some b) := by
  by_cases hp : p = "/list-keys"
  · subst hp
    rfl
  · simp only [fetch, if_neg hp, Option.map_some']
    cases env.get (deriveKey p) with
    | none => rfl
    | some v =>
      by_cases hv : v = ""
      · simp [hv]
      · simp only [if_neg hv, hab]

theorem fetch_listKeys_ok (digest : String → List (Fin 256)) (env : Env)
    (fuel : Nat) (inm : Option String) {ks : List String} {n : Nat}
    (hl : listAllKeys env.list fuel = some (.ok ks n)) :
    fetch digest env fuel "/list-keys" inm =
      some { status := 200
           , body := .jsonArr ks
           , headers := [("Content-Type", "application/json"),
                         ("Access-Control-Allow-Origin", "*")] } := by
  unfold fetch
  rw [if_pos rfl, hl]

theorem fetch_listKeys_fault (digest : String → List (Fin 256)) (env : Env)
    (fuel : Nat) (inm : Option String) {e : KvFault} {n : Nat}
    (hl : listAllKeys env.list fuel = some (.fault e n)) :
    fetch digest env fuel "/list-keys" inm =
      some { status := 500
           , body := .jsonObj [("error", "Failed to list keys"),
                               ("details", e.getD "Unknown error")]
           , headers := [("Content-Type", "application/json")] } := by
  unfold fetch
  rw [if_pos rfl, hl]
  cases e <;> rfl

/-! ### Pagination lemmas -/

/-- The loop halts from cursor `cur`: the trace of listing calls starting
at `cur` eventually throws or returns a cursor that is absent (or empty,
hence falsy for the `while (cursor)` guard). -/
inductive HaltsFrom (lst : KvListFn) : Option String → Prop where
  | fault (cur : Option String) (e : KvFault) (h : lst cur 1000 = .error e) :
      HaltsFrom lst cur
  | done (cur : Option String) (r : KvListResult) (h : lst cur 1000 = .ok r)
      (hc : cursorTruthy r.cursor = false) : HaltsFrom lst cur
  | more (cur : Option String) (r : KvListResult) (h : lst cur 1000 = .ok r)
      (hc : cursorTruthy r.cursor = true) (tail : HaltsFrom lst r.cursor) :
      HaltsFrom lst cur

theorem haltsFrom_go {lst : KvListFn} {cur : Option String}
    (h : HaltsFrom lst cur) :
    ∀ acc calls, ∃ fuel out, listAllKeysGo lst fuel cur acc calls = some out := by
  induction h with
  | fault cur e he =>
    intro acc calls
    exact ⟨1, .fault e (calls + 1), by simp [listAllKeysGo, he]⟩
  | done cur r hr hc =>
    intro acc calls
    exact ⟨1, .ok (acc ++ r.keys.map KvKey.name) (calls + 1),
      by simp [listAllKeysGo, hr, hc]⟩
  | more cur r hr hc tail ih =>
    intro acc calls
    obtain ⟨fuel, out, hout⟩ := ih (acc ++ r.keys.map KvKey.name) (calls + 1)
    exact ⟨fuel + 1, out, by simp [listAllKeysGo, hr, hc, hout]⟩

/-- A store that always reports a continuation cursor. -/
def endlessList : KvListFn := fun _ _ => .ok ⟨[], some "c"⟩

theorem endlessList_go_none :
    ∀ fuel cur acc calls, listAllKeysGo endlessList fuel cur acc calls = none := by
  intro fuel
  induction fuel with
  | zero => intro cur acc calls; rfl
  | succ f ih =>
    intro cur acc calls
    simp [listAllKeysGo, endlessList, cursorTruthy, ih]

/-! ### Concrete digests, stores and environments used in witnesses -/

/-- A digest producing no bytes (the claims hold for every digest). -/
def noDigest : String → List (Fin 256) := fun _ => []

/-- A digest producing the two bytes `0xff 0x0a`, so the hex fingerprint
of any text is `"ff0a"`. -/
def twoByteDigest : String → List (Fin 256) :=
  fun _ => [⟨255, by decide⟩, ⟨10, by decide⟩]

/-- A store with no documents and a single empty key page. -/
def emptyEnv : Env :=
  { get := fun _ => none, list := fun _ _ => .ok ⟨[], none⟩ }

/-- A store holding one document `"hello"` under key `a.json`. -/
def docEnv : Env :=
  { get := fun k => if k = "a.json" then some "hello" else none
  , list := fun _ _ => .ok ⟨[], none⟩ }

/-- A listing operation that throws an object with message `"boom"`. -/
def failingList : KvListFn := fun _ _ => .error (some "boom")

/-- An environment whose listing operation always throws. -/
def failingEnv : Env := { get := fun _ => none, list := failingList }

/-- A listing operation that answers everything in one page. -/
def singlePageList : KvListFn := fun _ _ => .ok ⟨[], none⟩

/-- First page of the 2500-key store: keys `0`–`999`. -/
def pageOne : List KvKey := (List.range 1000).map (fun i => ⟨Nat.repr i⟩)

/-- Second page of the 2500-key store: keys `1000`–`1999`. -/
def pageTwo : List KvKey := (List.range 1000).map (fun i => ⟨Nat.repr (1000 + i)⟩)

/-- Third page of the 2500-key store: keys `2000`–`2499`. -/
def pageThree : List KvKey := (List.range 500).map (fun i => ⟨Nat.repr (2000 + i)⟩)

/-- A store holding 2500 keys served in pages of 1000, 1000 and 500. -/
def pagedList : KvListFn := fun cursor _ =>
  match cursor with
  | none => .ok ⟨pageOne, some "cursor-1"⟩
  | some "cursor-1" => .ok ⟨pageTwo, some "cursor-2"⟩
  | some "cursor-2" => .ok ⟨pageThree, none⟩
  | some _ => .error none

/-! ### The claims -/

/-- C1 (counterexample): not every response carries
`Access-Control-Allow-Origin: *`. On the store with no entries, the
request for `/x` produces the 404 response, and its header list —
exactly `[("Content-Type", "application/json")]` — does not contain
that header. -/
theorem c1_cors_counterexample :
    ∃ resp : Response, fetch noDigest emptyEnv 1 "/x" none = some resp ∧
      ("Access-Control-Allow-Origin", "*") ∉ resp.headers :=
  ⟨notFoundResponse "x.json", by decide, by decide⟩

/-- C1 (amended): a response of the fetch handler carries
`Access-Control-Allow-Origin: *` exactly when its status is 200 or 304:
the 200 document, 304 not-modified and 200 key-list responses carry it,
while the 404 not-found and 500 enumeration-failure responses do not. -/
theorem c1_cors_amended (digest : String → List (Fin 256)) (env : Env)
    (fuel : Nat) (p : String) (inm : Option String) (resp : Response)
    (hr : fetch digest env fuel p inm = some resp) :
    (("Access-Control-Allow-Origin", "*") ∈ resp.headers) ↔
      (resp.status = 200 ∨ resp.status = 304) := by
  by_cases hp : p = "/list-keys"
  · subst hp
    simp only [fetch, if_pos rfl] at hr
    cases hl : listAllKeys env.list fuel with
    | none =>
      rw [hl] at hr
      exact Option.noConfusion hr
    | some out =>
      rw [hl] at hr
      cases out with
      | ok ks n =>
        injection hr with h
        subst h
        simp
      | fault e n =>
        injection hr with h
        subst h
        simp
  · rcases hget : env.get (deriveKey p) with _ | v
    · rw [fetch_miss digest env fuel inm hp (Or.inl hget)] at hr
      injection hr with h
      subst h
      simp [notFoundResponse]
    · by_cases hne : v = ""
      · rw [fetch_miss digest env fuel inm hp (Or.inr (hne ▸ hget))] at hr
        injection hr with h
        subst h
        simp [notFoundResponse]
      · rw [fetch_hit digest env fuel inm hp hget hne] at hr
        split at hr
        · injection hr with h
          subst h
          simp
        · injection hr with h
          subst h
          simp

/-- C1 (witness for the amended theorem): the key-list 200 response on the
empty store does carry the header, matching its status being 200. -/
theorem c1_cors_amended_witness :
    (("Access-Control-Allow-Origin", "*") ∈
        ([("Content-Type", "application/json"),
          ("Access-Control-Allow-Origin", "*")] : List Header)) ↔
      ((200 : Nat) = 200 ∨ (200 : Nat) = 304) :=
  c1_cors_amended noDigest emptyEnv 1 "/list-keys" none
    { status := 200, body := .jsonArr []
    , headers := [("Content-Type", "application/json"),
                  ("Access-Control-Allow-Origin", "*")] }
    (by decide)

/-- C2: the derived storage key equals the path with all leading slashes
stripped, with `".json"` appended exactly when the stripped path does not
already end in `".json"` (and unchanged when it does); the derived key
therefore always ends in `".json"`. The derivation is a total Lean
function, hence total and deterministic on every string. -/
theorem c2_key_derivation (p : String) :
    (jsEndsWith (jsStripLeadingSlashes p) ".json" = false →
      deriveKey p = jsStripLeadingSlashes p ++ ".json")
    ∧ (jsEndsWith (jsStripLeadingSlashes p) ".json" = true →
      deriveKey p = jsStripLeadingSlashes p)
    ∧ jsEndsWith (deriveKey p) ".json" = true := by
  refine ⟨fun h => by simp [deriveKey, h], fun h => by simp [deriveKey, h], ?_⟩
  unfold deriveKey
  by_cases h : jsEndsWith (jsStripLeadingSlashes p) ".json" = true
  · simp [h]
  · simp only [h, if_false, Bool.not_eq_true] at h ⊢
    simp only [h, Bool.false_eq_true, if_false]
    unfold jsEndsWith
    rw [List.isSuffixOf_iff_suffix, String.data_append]
    exact List.suffix_append _ _

/-- C2 (witness): at the concrete path `/a`, the stripped path `a` does
not end in `".json"` and the derived key is `a` with `".json"`
appended. -/
theorem c2_key_derivation_witness :
    jsEndsWith (jsStripLeadingSlashes "/a") ".json" = false ∧
      deriveKey "/a" = jsStripLeadingSlashes "/a" ++ ".json" :=
  ⟨by decide, (c2_key_derivation "/a").1 (by decide)⟩

/-- C3: for every path other than `/list-keys` whose derived key has no
stored entry, or whose stored value is empty, the handler returns exactly
status 404 with the JSON body
`{"error": "JSON not found for key: <derivedKey>"}` and a
`Content-Type: application/json` header. -/
theorem c3_not_found (digest : String → List (Fin 256)) (env : Env)
    (fuel : Nat) (p : String) (inm : Option String) (hp : p ≠ "/list-keys")
    (hv : env.get (deriveKey p) = none ∨ env.get (deriveKey p) = some "") :
    fetch digest env fuel p inm =
      some { status := 404
           , body := .jsonObj
               [("error", "JSON not found for key: " ++ deriveKey p)]
           , headers := [("Content-Type", "application/json")] } := by
  rw [fetch_miss digest env fuel inm hp hv]
  rfl

/-- C3 (witness): on the empty store, requesting `/x` yields the 404
response naming the derived key. -/
theorem c3_not_found_witness :
    ("/x" : String) ≠ "/list-keys" ∧
      fetch noDigest emptyEnv 1 "/x" none =
        some { status := 404
             , body := .jsonObj
                 [("error", "JSON not found for key: " ++ deriveKey "/x")]
             , headers := [("Content-Type", "application/json")] } :=
  ⟨by decide, c3_not_found noDigest emptyEnv 1 "/x" none (by decide) (Or.inl rfl)⟩

/-- C4: round trip. For every stored document with non-empty content, the
unconditional fetch returns 200 with the document body and the quoted
fingerprint as its `ETag`; re-requesting with exactly that token as the
`If-None-Match` header yields a 304 with empty body, the token echoed in
`ETag`, and `Access-Control-Expose-Headers: ETag`. -/
theorem c4_round_trip (digest : String → List (Fin 256)) (env : Env)
    (fuel : Nat) (p v : String) (hp : p ≠ "/list-keys")
    (hv : env.get (deriveKey p) = some v) (hne : v ≠ "") :
    fetch digest env fuel p none =
      some { status := 200
           , body := .doc v
           , headers := [("Content-Type", "application/json"),
                         ("Access-Control-Allow-Origin", "*"),
                         ("Cache-Control", "public, max-age=300"),
                         ("ETag", "\"" ++ sha1hex digest v ++ "\"")] }
    ∧ fetch digest env fuel p (some ("\"" ++ sha1hex digest v ++ "\"")) =
      some { status := 304
           , body := .empty
           , headers := [("ETag", "\"" ++ sha1hex digest v ++ "\""),
                         ("Access-Control-Allow-Origin", "*"),
                         ("Access-Control-Expose-Headers", "ETag")] } := by
  constructor
  · rw [fetch_hit digest env fuel none hp hv hne]
    simp
  · rw [fetch_hit digest env fuel (some ("\"" ++ sha1hex digest v ++ "\""))
      hp hv hne]
    rw [if_pos (by rw [Option.map_some', normalize_etag])]

/-- C4 (witness): with the two-byte digest, the document `"hello"` stored
under `a.json` fetches as 200 with `ETag` `"ff0a"`, and re-requesting
with that token yields the 304. -/
theorem c4_round_trip_witness :
    fetch twoByteDigest docEnv 1 "/a" none =
      some { status := 200
           , body := .doc "hello"
           , headers := [("Content-Type", "application/json"),
                         ("Access-Control-Allow-Origin", "*"),
                         ("Cache-Control", "public, max-age=300"),
                         ("ETag", "\"" ++ sha1hex twoByteDigest "hello" ++ "\"")] }
    ∧ fetch twoByteDigest docEnv 1 "/a"
        (some ("\"" ++ sha1hex twoByteDigest "hello" ++ "\"")) =
      some { status := 304
           , body := .empty
           , headers := [("ETag", "\"" ++ sha1hex twoByteDigest "hello" ++ "\""),
                         ("Access-Control-Allow-Origin", "*"),
                         ("Access-Control-Expose-Headers", "ETag")] } :=
  c4_round_trip twoByteDigest docEnv 1 "/a" "hello" (by decide) (by decide)
    (by decide)

/-- C5: a conditional header `W/"t"` (weak validator, quoted) produces
exactly the same response as `"t"` — for every digest, environment, fuel,
path and token. -/
theorem c5_weak_validator (digest : String → List (Fin 256)) (env : Env)
    (fuel : Nat) (p t : String) :
    fetch digest env fuel p (some ("W/" ++ ("\"" ++ t ++ "\""))) =
      fetch digest env fuel p (some ("\"" ++ t ++ "\"")) := by
  apply fetch_header_congr
  rw [stripWeakMarker_weak, String.append_assoc,
    stripWeakMarker_of_quote (t ++ "\"")]

/-- C6: pagination. If the store serves three pages — each call made with
limit 1000, each later call with the cursor of the previous one, the last
page with no cursor — then the enumeration returns exactly the
concatenation of the page key names in store order, in exactly 3 listing
calls, for every sufficient fuel. -/
theorem c6_pagination (lst : KvListFn) (k1 k2 k3 : List KvKey)
    (c1 c2 : String)
    (h1 : lst none 1000 = .ok ⟨k1, some c1⟩)
    (h2 : lst (some c1) 1000 = .ok ⟨k2, some c2⟩)
    (h3 : lst (some c2) 1000 = .ok ⟨k3, none⟩)
    (hc1 : c1 ≠ "") (hc2 : c2 ≠ "") (fuel : Nat) (hf : 3 ≤ fuel) :
    listAllKeys lst fuel =
      some (.ok (k1.map KvKey.name ++ k2.map KvKey.name ++ k3.map KvKey.name)
        3) := by
  obtain ⟨m, rfl⟩ := Nat.exists_eq_add_of_le hf
  have e0 : cursorTruthy none = false := rfl
  have e1 : cursorTruthy (some c1) = true := by simp [cursorTruthy, hc1]
  have e2 : cursorTruthy (some c2) = true := by simp [cursorTruthy, hc2]
  show listAllKeysGo lst (3 + m) none [] 0 = _
  rw [Nat.add_comm 3 m]
  show listAllKeysGo lst (m + 2 + 1) none [] 0 = _
  simp only [listAllKeysGo, h1, h2, h3, e0, e1, e2, if_true,
    Bool.false_eq_true, if_false, List.nil_append]

/-- C6 (witness): the concrete store `pagedList` holds 2500 keys served
in pages of 1000, 1000 and 500; enumerating it returns exactly those 2500
keys in store order in exactly 3 calls. -/
theorem c6_pagination_witness :
    listAllKeys pagedList 3 =
      some (.ok (pageOne.map KvKey.name ++ pageTwo.map KvKey.name ++
        pageThree.map KvKey.name) 3)
    ∧ (pageOne.map KvKey.name ++ pageTwo.map KvKey.name ++
        pageThree.map KvKey.name).length = 2500 :=
  ⟨c6_pagination pagedList pageOne pageTwo pageThree "cursor-1" "cursor-2"
      rfl rfl rfl (by decide) (by decide) 3 (by decide),
    by simp [pageOne, pageTwo, pageThree]⟩

/-- C7: every enumeration fault on `/list-keys` produces status 500 with
body `{"error": "Failed to list keys", "details": <message>}`, where the
details are the fault's `message` when the thrown value carries one and
`"Unknown error"` otherwise; the body is the error object, never a
(partial) key list. -/
theorem c7_enumeration_fault (digest : String → List (Fin 256)) (env : Env)
    (fuel : Nat) (inm : Option String) (e : KvFault) (n : Nat)
    (hl : listAllKeys env.list fuel = some (.fault e n)) :
    fetch digest env fuel "/list-keys" inm =
      some { status := 500
           , body := .jsonObj [("error", "Failed to list keys"),
                               ("details", e.getD "Unknown error")]
           , headers := [("Content-Type", "application/json")] } :=
  fetch_listKeys_fault digest env fuel inm hl

/-- C7 (witness): on the store whose listing throws an object with
message `"boom"`, `/list-keys` yields the 500 response with details
`"boom"`. -/
theorem c7_enumeration_fault_witness :
    fetch noDigest failingEnv 1 "/list-keys" none =
      some { status := 500
           , body := .jsonObj [("error", "Failed to list keys"),
                               ("details", "boom")]
           , headers := [("Content-Type", "application/json")] } :=
  c7_enumeration_fault noDigest failingEnv 1 none (some "boom") 1 rfl

/-- C8: the enumeration loop terminates for every store whose trace of
listing calls eventually reports an absent (falsy) cursor or throws —
some fuel suffices; and with no such guarantee the loop is genuinely
unbounded: against a store that always returns a cursor, no fuel ever
completes the loop. -/
theorem c8_termination :
    (∀ lst : KvListFn, HaltsFrom lst none →
      ∃ fuel out, listAllKeys lst fuel = some out)
    ∧ (∀ fuel, listAllKeys endlessList fuel = none) := by
  constructor
  · intro lst h
    obtain ⟨fuel, out, hout⟩ := haltsFrom_go h [] 0
    exact ⟨fuel, out, hout⟩
  · intro fuel
    exact endlessList_go_none fuel none [] 0

/-- C8 (witness): the single-page store halts immediately, so the
enumeration terminates on it. -/
theorem c8_termination_witness :
    ∃ fuel out, listAllKeys singlePageList fuel = some out :=
  c8_termination.1 singlePageList (HaltsFrom.done none ⟨[], none⟩ rfl rfl)

/-- C9 (counterexample): key derivation is not injective — the two
distinct paths `/a` and `//a` derive the same storage key `a.json`. -/
theorem c9_injective_counterexample :
    ("/a" : String) ≠ "//a" ∧ deriveKey "/a" = deriveKey "//a" :=
  ⟨by decide, by decide⟩

/-- C9 (amended): the derivation identifies paths that differ only in
leading slashes or in the presence of the `".json"` suffix; it is
injective on canonical paths — those with no leading slash already ending
in `".json"` — where it is the identity. -/
theorem c9_injective_on_canonical {p1 p2 : String}
    (h1s : jsStartsWith p1 "/" = false) (h1e : jsEndsWith p1 ".json" = true)
    (h2s : jsStartsWith p2 "/" = false) (h2e : jsEndsWith p2 ".json" = true)
    (hne : p1 ≠ p2) : deriveKey p1 ≠ deriveKey p2 := by
  have d1 : deriveKey p1 = p1 := by
    simp [deriveKey, jsStripLeadingSlashes_of_no_slash h1s, h1e]
  have d2 : deriveKey p2 = p2 := by
    simp [deriveKey, jsStripLeadingSlashes_of_no_slash h2s, h2e]
  rw [d1, d2]
  exact hne

/-- C9 (witness for the amended theorem): the canonical paths `a.json`
and `b.json` are distinct and derive distinct keys. -/
theorem c9_injective_witness :
    jsStartsWith "a.json" "/" = false ∧ jsEndsWith "a.json" ".json" = true
    ∧ jsStartsWith "b.json" "/" = false ∧ jsEndsWith "b.json" ".json" = true
    ∧ ("a.json" : String) ≠ "b.json"
    ∧ deriveKey "a.json" ≠ deriveKey "b.json" :=
  ⟨by decide, by decide, by decide, by decide, by decide,
    c9_injective_on_canonical (by decide) (by decide) (by decide) (by decide)
      (by decide)⟩

/-- C10: when the derived key has a non-empty stored value and the
request carries no `If-None-Match` header, the handler always returns the
full 200 response with the document body — an absent header can never
compare equal to the computed fingerprint, so no 304 is possible. -/
theorem c10_absent_header_full_200 (digest : String → List (Fin 256))
    (env : Env) (fuel : Nat) (p v : String) (hp : p ≠ "/list-keys")
    (hv : env.get (deriveKey p) = some v) (hne : v ≠ "") :
    fetch digest env fuel p none =
      some { status := 200
           , body := .doc v
           , headers := [("Content-Type", "application/json"),
                         ("Access-Control-Allow-Origin", "*"),
                         ("Cache-Control", "public, max-age=300"),
                         ("ETag", "\"" ++ sha1hex digest v ++ "\"")] } := by
  rw [fetch_hit digest env fuel none hp hv hne]
  simp

/-- C10 (witness): the stored document `"hello"` fetches as the full 200
when no conditional header is supplied. -/
theorem c10_absent_header_witness :
    fetch twoByteDigest docEnv 1 "/a" none =
      some { status := 200
           , body := .doc "hello"
           , headers := [("Content-Type", "application/json"),
                         ("Access-Control-Allow-Origin", "*"),
                         ("Cache-Control", "public, max-age=300"),
                         ("ETag", "\"" ++ sha1hex twoByteDigest "hello" ++ "\"")] } :=
  c10_absent_header_full_200 twoByteDigest docEnv 1 "/a" "hello" (by decide)
    (by decide) (by decide)

end PraxisHub
